import Mathlib

/-!
# Verification of the davil star-coordinates core

Shallow embedding of the geometric/algorithmic core of the repository:
the line-equation solver, the point-size scaler
(`frontend/view/controllers/point_size_controller.py`), the mapping
animator (`frontend/view/animation/mapping_animator.py`), the mapper
controller (`frontend/view/controllers/mapper_controller.py`) and the
axis-visibility update of `frontend/view/star_coordinates_view.py`.

Numbers are modelled as rationals (exact arithmetic in place of Python
floats); fallible Python code is modelled in `Except`.  The file is laid
out as definitions first, theorems second.
-/

namespace Davil

/-- A 2D point: the pair of its x and y coordinates. -/
abbrev Point : Type := ℚ × ℚ

/-- Python's true division `a / b`: raises `ZeroDivisionError` when the
denominator is zero (the modules at hand import `division` from
`__future__`, so `/` is true division even on integers). -/
def pydiv (a b : ℚ) : Except String ℚ :=
  if b = 0 then .error "ZeroDivisionError" else .ok (a / b)

/-- Modelled from the spec: `calculate_line_equation` of the module
`backend/util/line_equation.py`, which is absent from the sources (only
its importers are present).  Per the spec (§4.3, §8), it solves the slope
`m` and intercept `c` of the line `y = m*x + c` through the two points
`(x0, y0)` and `(x1, y1)`, and the zero-denominator case (equal
x-endpoints) is special-cased rather than divided by: the line
degenerates and the solver keeps `y` at its first endpoint (slope `0`,
intercept `y0`), the convention the spec calls the degenerate zero-slope
line. -/
def calculate_line_equation (x0x1 y0y1 : ℚ × ℚ) : Except String (ℚ × ℚ) :=
  if x0x1.2 - x0x1.1 = 0 then
    .ok (0, y0y1.1)
  else
    match pydiv (y0y1.2 - y0y1.1) (x0x1.2 - x0x1.1) with
    | .error e => .error e
    | .ok m => .ok (m, y0y1.1 - m * x0x1.1)

/-- The pure value computed by `calculate_line_equation` (which never
actually raises, thanks to the special case). -/
def line_mc (x0x1 y0y1 : ℚ × ℚ) : ℚ × ℚ :=
  if x0x1.2 - x0x1.1 = 0 then (0, y0y1.1)
  else
    ((y0y1.2 - y0y1.1) / (x0x1.2 - x0x1.1),
     y0y1.1 - (y0y1.2 - y0y1.1) / (x0x1.2 - x0x1.1) * x0x1.1)

/-! ## Point-size controller (`point_size_controller.py`) — definitions -/

/-- State of `PointSizeController`: the two stored size bounds and the
cached line-equation coefficients `self._m`, `self._c`. -/
structure PointSizeController where
  initial_size : ℚ
  final_size : ℚ
  m : ℚ
  c : ℚ
deriving DecidableEq

namespace PointSizeController

/-- `PointSizeController.MIN_SIZE`. -/
def MIN_SIZE : ℤ := 1

/-- Python's `int(q)`: truncation toward zero. -/
def pyint (q : ℚ) : ℤ := if 0 ≤ q then ⌊q⌋ else ⌈q⌉

/-- `PointSizeController._get_valid_size`: `size = int(size)`, then the
original size or the minimum valid one. -/
def _get_valid_size (size : ℚ) : ℤ :=
  let size' := pyint size
  if MIN_SIZE ≤ size' then size' else MIN_SIZE

/-- `PointSizeController._calculate_line_equation`: the line through the
control points `(0, initial_size)` and `(1, final_size)`. -/
def _calculate_line_equation (initial_size final_size : ℚ) :
    Except String (ℚ × ℚ) :=
  calculate_line_equation (0, 1) (initial_size, final_size)

/-- `PointSizeController.update_sizes`: recompute `m`, `c` from the
stored bounds and push `m * point_error_s + c` (vectorized over the
normalized error series, here an explicit argument standing for
`self._error_controller.get_last_point_error(normalized=True)`).
Returns the new controller state and the size vector pushed to the
point controller. -/
def update_sizes (st : PointSizeController) (point_error_s : List ℚ) :
    Except String (PointSizeController × List ℚ) :=
  match _calculate_line_equation st.initial_size st.final_size with
  | .error e => .error e
  | .ok mc =>
      .ok ({ st with m := mc.1, c := mc.2 },
           point_error_s.map fun e => mc.1 * e + mc.2)

/-- `PointSizeController.set_single_size`: push the validated size,
replicated once per point (`no_points` is the count reported by the
point controller).  The stored state is not written to. -/
def set_single_size (st : PointSizeController) (new_size : ℚ)
    (no_points : ℕ) : PointSizeController × List ℚ :=
  (st, List.replicate no_points ((_get_valid_size new_size : ℤ) : ℚ))

/-- `PointSizeController.set_initial_size`. -/
def set_initial_size (st : PointSizeController) (new_size : ℚ)
    (point_error_s : List ℚ) : Except String (PointSizeController × List ℚ) :=
  update_sizes { st with initial_size := ((_get_valid_size new_size : ℤ) : ℚ) }
    point_error_s

/-- `PointSizeController.set_final_size`. -/
def set_final_size (st : PointSizeController) (new_size : ℚ)
    (point_error_s : List ℚ) : Except String (PointSizeController × List ℚ) :=
  update_sizes { st with final_size := ((_get_valid_size new_size : ℤ) : ℚ) }
    point_error_s

/-- `PointSizeController.get_initial_size`. -/
def get_initial_size (st : PointSizeController) : ℚ := st.initial_size

/-- `PointSizeController.get_final_size`. -/
def get_final_size (st : PointSizeController) : ℚ := st.final_size

end PointSizeController

/-! ## Mapping animator (`mapping_animator.py`) — definitions -/

/-- One row of the equation dataframe built by
`MappingAnimator._get_equation_dataframe`: columns `x`, `y`, `m`, `c`. -/
structure EqRow where
  x : ℚ
  y : ℚ
  m : ℚ
  c : ℚ
deriving DecidableEq

namespace MappingAnimator

/-- `MappingAnimator.step_x_exponential`: for every index `i`, read the
CURRENT x of the step dataframe (`x0 = step_points_df['x'][i]`, not the
original layout) and write `x0 + step * (xf - x0) / total_steps`. -/
def step_x_exponential (step_points_df : List EqRow) (final_points : List Point)
    (step total_steps : ℕ) : List EqRow :=
  List.zipWith
    (fun r p => { r with x := r.x + (step : ℚ) * (p.1 - r.x) / (total_steps : ℚ) })
    step_points_df final_points

/-- `MappingAnimator.step_x_constant`: the variant that reads x from the
original layout (`x0 = original_points['x'][i]`); present in the source
but not called by `get_animation_sequence`. -/
def step_x_constant (original_points : List Point) (step_points_df : List EqRow)
    (final_points : List Point) (step total_steps : ℕ) : List EqRow :=
  List.zipWith
    (fun op_r p =>
      { op_r.2 with
        x := op_r.1.1 + (step : ℚ) * (p.1 - op_r.1.1) / (total_steps : ℚ) })
    (original_points.zip step_points_df) final_points

/-- `MappingAnimator.evaluate_y`: `points_df.eval('y = m * x + c')` — set
each row's y to `m * x + c` from that row's columns. -/
def evaluate_y (points_df : List EqRow) : List EqRow :=
  points_df.map fun r => { r with y := r.m * r.x + r.c }

/-- One loop iteration of `get_animation_sequence`: `step_x_exponential`
followed by `evaluate_y` (the layout is then pushed to the render
buffer). -/
def anim_step (final_points : List Point) (total_steps : ℕ)
    (df : List EqRow) (step : ℕ) : List EqRow :=
  evaluate_y (step_x_exponential df final_points step total_steps)

/-- The state of the step dataframe after the loop iterations
`0, 1, ..., s-1` of `get_animation_sequence` have run. -/
def df_after (df : List EqRow) (final_points : List Point)
    (total_steps s : ℕ) : List EqRow :=
  (List.range s).foldl (anim_step final_points total_steps) df

/-- The x/y layout a dataframe pushes to the render buffer
(`update_coordinates(df['x'], df['y'])`). -/
def layout_of (df : List EqRow) : List Point :=
  df.map fun r => (r.x, r.y)

/-- The per-point body of `_get_equation_dataframe`: a row carrying the
original x and y plus `m`, `c` solved from the point's two endpoint
pairs. -/
def mk_row (p : Point) (mc : ℚ × ℚ) : EqRow :=
  { x := p.1, y := p.2, m := mc.1, c := mc.2 }

/-- The loop of `MappingAnimator._get_equation_dataframe`: zip the
original and mapped layouts, solve `m`, `c` per point with
`calculate_line_equation`, and return the original dataframe extended
with the `m` and `c` columns. -/
def mk_equation_rows : List Point → List Point → Except String (List EqRow)
  | p :: ps, q :: qs =>
      match calculate_line_equation (p.1, q.1) (p.2, q.2) with
      | .error e => .error e
      | .ok mc =>
          match mk_equation_rows ps qs with
          | .error e => .error e
          | .ok rest => .ok (mk_row p mc :: rest)
  | _, _ => .ok []

/-- `MappingAnimator._get_equation_dataframe`: the equation dataframe
together with the formula string `'m * x + c'`. -/
def _get_equation_dataframe (original_points mapped_points : List Point) :
    Except String (List EqRow × String) :=
  match mk_equation_rows original_points mapped_points with
  | .error e => .error e
  | .ok rows => .ok (rows, "m * x + c")

/-- The dataframe mutation performed by
`MappingAnimator.calculate_time_cost`: one probe frame,
`step_x_exponential(df, mapped, 0, 1)` then `evaluate_y` (the result is
also pushed to the render buffer to include the rendering time in the
measurement). -/
def calculate_time_cost_df (df : List EqRow) (mapped_points : List Point) :
    List EqRow :=
  anim_step mapped_points 1 df 0

/-- Every layout pushed to the shared render buffer by
`get_animation_sequence`, in order: the probe frame of
`calculate_time_cost`, one frame per loop step `0, ..., total_steps - 1`,
and the final force-write of the exact mapped layout. -/
def animation_layouts (df0 : List EqRow) (mapped_points : List Point)
    (total_steps : ℕ) : List (List Point) :=
  let df1 := calculate_time_cost_df df0 mapped_points
  layout_of df1 ::
    ((List.range total_steps).map fun s =>
      layout_of (df_after df1 mapped_points total_steps (s + 1)))
    ++ [mapped_points]

/-- `MappingAnimator.get_animation_sequence`, returning the sequence of
layouts pushed to the render buffer.  `total_steps` is
`int(max_time // time_cost)` in the source, derived from a wall-clock
probe of one frame; real time is outside the embedding, so the step
count is taken as a parameter and quantified over (the spec itself flags
the timing-based derivation as environment-dependent). -/
def get_animation_sequence (original_points mapped_points : List Point)
    (total_steps : ℕ) : Except String (List (List Point)) :=
  match _get_equation_dataframe original_points mapped_points with
  | .error e => .error e
  | .ok df => .ok (animation_layouts df.1 mapped_points total_steps)

/-- Reference model of one x update of `step_x_exponential` on a single
point: `x + step * (xf - x) / total_steps`. -/
def step_x_point (x xf : ℚ) (step total_steps : ℕ) : ℚ :=
  x + (step : ℚ) * (xf - x) / (total_steps : ℚ)

/-- Reference model of the x coordinate of one point after loop
iterations `0, ..., s-1` have run (iteration `j` applies
`step_x_point · xf j total_steps` to the current x). -/
def x_after (x0 xf : ℚ) (total_steps : ℕ) : ℕ → ℚ
  | 0 => x0
  | s + 1 => step_x_point (x_after x0 xf total_steps s) xf s total_steps

/-- Reference model of the full equation-dataframe row of one point
after loop iterations `0, ..., s-1`: x follows `x_after`, `m` and `c`
are the solved line coefficients of the point, and y is `m * x + c`. -/
def row_at (p q : Point) (total_steps s : ℕ) : EqRow :=
  let mc := line_mc (p.1, q.1) (p.2, q.2)
  let x := x_after p.1 q.1 total_steps s
  { x := x, y := mc.1 * x + mc.2, m := mc.1, c := mc.2 }

/-- Reference model of the equation dataframe as a pure zip (the value
`mk_equation_rows` always succeeds with). -/
def eq_rows (original mapped : List Point) : List EqRow :=
  List.zipWith (fun p q => mk_row p (line_mc (p.1, q.1) (p.2, q.2)))
    original mapped

end MappingAnimator

/-! ## Mapper controller (`mapper_controller.py`) — definitions -/

/-- The mapped-points table (point positions keyed by order). -/
abbrev Table : Type := List Point

/-- State of `MapperController` relevant to the mapping recompute: the
stored `self._last_mapped_points_df`. -/
structure MapperController where
  last_mapped : Option Table
deriving DecidableEq

namespace MapperController

/-- `MapperController.execute_mapping`.  The external collaborators are
passed as outcome parameters: `alg` is the run of the active mapping
algorithm (`execute_active_algorithm`), `has_animator`/`anim` the
optional animation (`self._animator.get_animation_sequence`), and
`has_source`/`src` the optional push into the shared source points
(`self._update_source_points`).  `self._last_mapped_points_df` is
assigned only after the algorithm and the animation have completed.
Returns the final controller state and the call's result. -/
def execute_mapping (st : MapperController) (alg : Except String Table)
    (has_animator : Bool) (anim : Except String Unit)
    (has_source : Bool) (src : Except String Unit) :
    MapperController × Except String Table :=
  match alg with
  | .error e => (st, .error e)
  | .ok mapped_points_df =>
      match has_animator, anim with
      | true, .error e => (st, .error e)
      | _, _ =>
          let st1 : MapperController := { st with last_mapped := some mapped_points_df }
          match has_source, src with
          | true, .error e => (st1, .error e)
          | _, _ => (st1, .ok mapped_points_df)

/-- `MapperController.get_mapped_points`. -/
def get_mapped_points (st : MapperController) : Option Table :=
  st.last_mapped

end MapperController

/-! ## Star-coordinates view (`star_coordinates_view.py`) — definitions -/

/-- A Python exception, as far as the modelled paths can raise one. -/
inductive PyError where
  | keyError : String → PyError
  | valueError : String → PyError
deriving DecidableEq

/-- State of `StarCoordinatesView` relevant to
`update_axis_visibility`, with the externally observable effects on its
collaborators recorded as call traces: `axis_elements` is the key set of
the `self._axis_elements` dict, `label_status_calls` records the calls
made to `self._input_data_controller.update_label_status`, and
`mapping_runs` counts the calls to `self._execute_mapping`. -/
structure StarCoordinatesView where
  axis_elements : List String
  label_status_calls : List (String × Bool)
  mapping_runs : ℕ
deriving DecidableEq

namespace StarCoordinatesView

/-- `StarCoordinatesView.update_axis_visibility`, line for line.  The
source's first statement builds
`ValueError("Could not update the visibility of the axis ...")` when
`axis_id` is unknown but never raises it (there is no `raise`), so it is
a no-op here.  Then `update_label_status(axis_id, is_visible)` is called
unconditionally, and `self._axis_elements[axis_id]` raises `KeyError`
for an unknown id; for a known id the element's `visible(is_visible)`
call (an external `AxisFigureElement`, its answer passed in as
`visible_changed`) decides whether `_execute_mapping` runs.  Returns the
final state and the exception the call terminated with, if any. -/
def update_axis_visibility (st : StarCoordinatesView) (axis_id : String)
    (is_visible : Bool) (visible_changed : Bool) :
    StarCoordinatesView × Option PyError :=
  let st1 := { st with
    label_status_calls := st.label_status_calls ++ [(axis_id, is_visible)] }
  if axis_id ∈ st1.axis_elements then
    if visible_changed then
      ({ st1 with mapping_runs := st1.mapping_runs + 1 }, none)
    else
      (st1, none)
  else
    (st1, some (.keyError axis_id))

end StarCoordinatesView

/-! ## Theorems -/

theorem calculate_line_equation_ok (x0x1 y0y1 : ℚ × ℚ) :
    calculate_line_equation x0x1 y0y1 = .ok (line_mc x0x1 y0y1) := by
  unfold calculate_line_equation line_mc pydiv
  by_cases h : x0x1.2 - x0x1.1 = 0 <;> simp [h]

/-- The line returned by the solver passes through its first endpoint. -/
theorem line_mc_first (x0x1 y0y1 : ℚ × ℚ) :
    (line_mc x0x1 y0y1).1 * x0x1.1 + (line_mc x0x1 y0y1).2 = y0y1.1 := by
  unfold line_mc
  by_cases h : x0x1.2 - x0x1.1 = 0 <;> simp [h]

namespace PointSizeController

theorem psc_line_mc (i f : ℚ) : line_mc (0, 1) (i, f) = (f - i, i) := by
  norm_num [line_mc]

theorem psc_calculate_line_equation (i f : ℚ) :
    _calculate_line_equation i f = .ok (f - i, i) := by
  rw [_calculate_line_equation, calculate_line_equation_ok, psc_line_mc]

theorem update_sizes_eq (st : PointSizeController) (errors : List ℚ) :
    update_sizes st errors =
      .ok ({ st with m := st.final_size - st.initial_size,
                     c := st.initial_size },
           errors.map fun e =>
             (st.final_size - st.initial_size) * e + st.initial_size) := by
  rw [update_sizes, psc_calculate_line_equation]

theorem pyint_lt_one (v : ℚ) (hv : v < 1) : pyint v < 1 := by
  unfold pyint
  by_cases h : 0 ≤ v
  · simp only [h, if_pos]
    exact Int.floor_lt.mpr (by exact_mod_cast hv)
  · simp only [h, if_neg, if_false]
    have : ⌈v⌉ ≤ (0 : ℤ) := Int.ceil_le.mpr (by push_neg at h; exact_mod_cast h.le)
    omega

theorem get_valid_size_of_lt_one (v : ℚ) (hv : v < 1) :
    _get_valid_size v = 1 := by
  have h := pyint_lt_one v hv
  unfold _get_valid_size MIN_SIZE
  simp only []
  omega

theorem get_valid_size_ge_one (v : ℚ) : 1 ≤ _get_valid_size v := by
  unfold _get_valid_size MIN_SIZE
  by_cases h : (1 : ℤ) ≤ pyint v <;> simp [h]

/-- C4: for every stored size bounds and every normalized error vector,
`update_sizes` pushes `m * normalized_error + c` for each point, where
`(m, c)` is the line through the control points `(0, initial_size)` and
`(1, final_size)`; in particular, bounds 4 and 12 with normalized error
`1/2` give size exactly 8. -/
theorem update_sizes_line_equation (st : PointSizeController) (errors : List ℚ) :
    (∃ m c st1,
        _calculate_line_equation st.initial_size st.final_size = .ok (m, c) ∧
        update_sizes st errors = .ok (st1, errors.map fun e => m * e + c))
    ∧ ∃ st2, update_sizes ⟨4, 12, 8, 4⟩ [1/2] = .ok (st2, [8]) := by
  constructor
  · exact ⟨st.final_size - st.initial_size, st.initial_size,
      { st with m := st.final_size - st.initial_size, c := st.initial_size },
      psc_calculate_line_equation _ _, update_sizes_eq st errors⟩
  · exact ⟨⟨4, 12, 8, 4⟩, by rw [update_sizes_eq]; norm_num⟩

/-- C6: setting the initial or the final size bound to any value below 1
stores exactly 1, and the corresponding getter subsequently returns 1. -/
theorem size_bounds_clamp_below_one (st : PointSizeController) (v : ℚ)
    (errors : List ℚ) (hv : v < 1) :
    (∃ st1 sizes1, set_initial_size st v errors = .ok (st1, sizes1) ∧
        get_initial_size st1 = 1)
    ∧ (∃ st2 sizes2, set_final_size st v errors = .ok (st2, sizes2) ∧
        get_final_size st2 = 1) := by
  have hval : _get_valid_size v = 1 := get_valid_size_of_lt_one v hv
  have h1 := update_sizes_eq
    { st with initial_size := ((_get_valid_size v : ℤ) : ℚ) } errors
  have h2 := update_sizes_eq
    { st with final_size := ((_get_valid_size v : ℤ) : ℚ) } errors
  exact ⟨⟨_, _, h1, by simp [get_initial_size, hval]⟩,
         ⟨_, _, h2, by simp [get_final_size, hval]⟩⟩

/-- Witness for C6 at the concrete input `v = 0`. -/
theorem size_bounds_clamp_below_one_witness :
    ((0 : ℚ) < 1) ∧
    ((∃ st1 sizes1,
        set_initial_size ⟨4, 12, 8, 4⟩ (0 : ℚ) [] = .ok (st1, sizes1) ∧
        get_initial_size st1 = 1)
      ∧ (∃ st2 sizes2,
        set_final_size ⟨4, 12, 8, 4⟩ (0 : ℚ) [] = .ok (st2, sizes2) ∧
        get_final_size st2 = 1)) :=
  ⟨by norm_num, size_bounds_clamp_below_one ⟨4, 12, 8, 4⟩ 0 [] (by norm_num)⟩

/-- C7: the size scaler is strictly monotone in the normalized error —
strictly increasing when `final_size > initial_size` and strictly
decreasing when `final_size < initial_size`. -/
theorem update_sizes_monotone (st st1 : PointSizeController)
    (e1 e2 s1 s2 : ℚ) (h12 : e1 < e2)
    (hupd : update_sizes st [e1, e2] = .ok (st1, [s1, s2])) :
    (st.initial_size < st.final_size → s1 < s2) ∧
    (st.final_size < st.initial_size → s2 < s1) := by
  rw [update_sizes_eq] at hupd
  simp only [List.map_cons, List.map_nil, Except.ok.injEq, Prod.mk.injEq,
    List.cons.injEq, and_true] at hupd
  obtain ⟨-, hs1, hs2⟩ := hupd
  subst hs1; subst hs2
  constructor
  · intro hlt
    have : (0 : ℚ) < st.final_size - st.initial_size := by linarith
    nlinarith
  · intro hlt
    have : st.final_size - st.initial_size < 0 := by linarith
    nlinarith

/-- Witness for C7 at bounds `(4, 12)` and errors `0 < 1`. -/
theorem update_sizes_monotone_witness :
    ((0 : ℚ) < 1 ∧
      update_sizes ⟨4, 12, 8, 4⟩ [0, 1] = .ok (⟨4, 12, 8, 4⟩, [4, 12])) ∧
    (4 : ℚ) < 12 :=
  ⟨⟨by norm_num, by rw [update_sizes_eq]; norm_num⟩,
    (update_sizes_monotone ⟨4, 12, 8, 4⟩ ⟨4, 12, 8, 4⟩ 0 1 4 12 (by norm_num)
      (by rw [update_sizes_eq]; norm_num)).1 (by norm_num)⟩

/-- C8: `set_single_size` pushes one identical size for every point and
leaves the stored initial-size and final-size bounds unchanged. -/
theorem set_single_size_preserves_bounds (st : PointSizeController)
    (v : ℚ) (n : ℕ) :
    get_initial_size (set_single_size st v n).1 = get_initial_size st ∧
    get_final_size (set_single_size st v n).1 = get_final_size st ∧
    ((set_single_size st v n).2).length = n ∧
    ∀ s ∈ (set_single_size st v n).2, s = ((_get_valid_size v : ℤ) : ℚ) := by
  refine ⟨rfl, rfl, List.length_replicate .., ?_⟩
  intro s hs
  exact List.eq_of_mem_replicate hs

/-- Witness for C8 at a concrete state, size and point count. -/
theorem set_single_size_preserves_bounds_witness :
    get_initial_size (set_single_size ⟨4, 12, 8, 4⟩ (5/2) 3).1 =
      get_initial_size ⟨4, 12, 8, 4⟩ ∧
    get_final_size (set_single_size ⟨4, 12, 8, 4⟩ (5/2) 3).1 =
      get_final_size ⟨4, 12, 8, 4⟩ ∧
    ((set_single_size ⟨4, 12, 8, 4⟩ (5/2) 3).2).length = 3 ∧
    ∀ s ∈ (set_single_size ⟨4, 12, 8, 4⟩ (5/2) 3).2,
      s = ((_get_valid_size (5/2) : ℤ) : ℚ) :=
  set_single_size_preserves_bounds ⟨4, 12, 8, 4⟩ (5/2) 3

/-- C10: the uniform size applied by `set_single_size` is the input
first truncated to an integer (`int(size)`, toward zero) and then
clamped to the minimum valid size, so every written size is an integer
at least 1, also for fractional, zero or negative inputs. -/
theorem set_single_size_truncate_clamp (st : PointSizeController)
    (v : ℚ) (n : ℕ) :
    (set_single_size st v n).2 =
      List.replicate n ((_get_valid_size v : ℤ) : ℚ) ∧
    _get_valid_size v = (if 1 ≤ pyint v then pyint v else 1) ∧
    1 ≤ _get_valid_size v := by
  refine ⟨rfl, rfl, get_valid_size_ge_one v⟩

end PointSizeController

namespace MappingAnimator

theorem mk_equation_rows_eq (original mapped : List Point) :
    mk_equation_rows original mapped = .ok (eq_rows original mapped) := by
  induction original generalizing mapped with
  | nil => cases mapped <;> rfl
  | cons p ps ih =>
      cases mapped with
      | nil => rfl
      | cons q qs =>
          rw [mk_equation_rows, calculate_line_equation_ok, ih]
          rfl

theorem get_animation_sequence_eq (original mapped : List Point) (T : ℕ) :
    get_animation_sequence original mapped T =
      .ok (animation_layouts (eq_rows original mapped) mapped T) := by
  rw [get_animation_sequence, _get_equation_dataframe, mk_equation_rows_eq]

theorem df_after_zero (df : List EqRow) (final : List Point) (T : ℕ) :
    df_after df final T 0 = df := rfl

theorem df_after_succ (df : List EqRow) (final : List Point) (T s : ℕ) :
    df_after df final T (s + 1) =
      anim_step final T (df_after df final T s) s := by
  rw [df_after, df_after, List.range_succ, List.foldl_append]
  rfl

theorem getElem?_anim_step (df : List EqRow) (final : List Point)
    (T s i : ℕ) :
    (anim_step final T df s)[i]? =
      match df[i]?, final[i]? with
      | some r, some p =>
          some { x := r.x + (s : ℚ) * (p.1 - r.x) / (T : ℚ),
                 y := r.m * (r.x + (s : ℚ) * (p.1 - r.x) / (T : ℚ)) + r.c,
                 m := r.m, c := r.c }
      | _, _ => none := by
  simp only [anim_step, evaluate_y, step_x_exponential, List.getElem?_map,
    List.getElem?_zipWith]
  cases df[i]? <;> cases final[i]? <;> rfl

theorem getElem?_eq_rows (original mapped : List Point) (i : ℕ) :
    (eq_rows original mapped)[i]? =
      match original[i]?, mapped[i]? with
      | some p, some q => some (mk_row p (line_mc (p.1, q.1) (p.2, q.2)))
      | _, _ => none := by
  rw [eq_rows, List.getElem?_zipWith]
  cases original[i]? <;> cases mapped[i]? <;> rfl

theorem x_after_one (x0 xf : ℚ) (T : ℕ) : x_after x0 xf T 1 = x0 := by
  show step_x_point x0 xf 0 T = x0
  simp [step_x_point]

/-- The dataframe after `s` loop iterations, pointwise: each row follows
the per-point reference model `row_at`. -/
theorem getElem?_df_after (original mapped : List Point) (T : ℕ)
    (s i : ℕ) :
    (df_after (calculate_time_cost_df (eq_rows original mapped) mapped)
        mapped T s)[i]? =
      match original[i]?, mapped[i]? with
      | some p, some q => some (row_at p q T s)
      | _, _ => none := by
  induction s with
  | zero =>
      rw [df_after_zero, calculate_time_cost_df, getElem?_anim_step,
        getElem?_eq_rows]
      cases original[i]? with
      | none => rfl
      | some p =>
          cases mapped[i]? with
          | none => rfl
          | some q =>
              simp only [mk_row, row_at, x_after]
              norm_num
  | succ n ih =>
      rw [df_after_succ, getElem?_anim_step, ih]
      cases original[i]? with
      | none => rfl
      | some p =>
          cases mapped[i]? with
          | none => rfl
          | some q =>
              simp only [row_at, x_after, step_x_point]

/-- Closed form of the compounded x recurrence: the remaining x-distance
to the target after `s` iterations is the original distance scaled by
`∏ (1 - j / total_steps)`. -/
theorem x_after_closed (x0 xf : ℚ) (T : ℕ) (s : ℕ) :
    xf - x_after x0 xf T s =
      (xf - x0) * ∏ j ∈ Finset.range s, (1 - (j : ℚ) / (T : ℚ)) := by
  induction s with
  | zero => simp [x_after]
  | succ n ih =>
      rw [show x_after x0 xf T (n + 1) =
            step_x_point (x_after x0 xf T n) xf n T from rfl,
        Finset.prod_range_succ, ← mul_assoc, ← ih, step_x_point]
      ring

theorem getElem?_layout_of (df : List EqRow) (i : ℕ) :
    (layout_of df)[i]? = Option.map (fun r => (r.x, r.y)) df[i]? := by
  rw [layout_of, List.getElem?_map]

theorem animation_layouts_getLast (df0 : List EqRow)
    (mapped : List Point) (T : ℕ) :
    (animation_layouts df0 mapped T).getLast? = some mapped := by
  rw [animation_layouts, List.getLast?_concat]

theorem animation_layouts_getElem_succ (df0 : List EqRow)
    (mapped : List Point) (T s : ℕ) (hs : s < T) :
    (animation_layouts df0 mapped T)[s + 1]? =
      some (layout_of
        (df_after (calculate_time_cost_df df0 mapped) mapped T (s + 1))) := by
  rw [animation_layouts]
  rw [List.getElem?_append_left (by simpa using Nat.succ_lt_succ hs),
    List.getElem?_cons_succ, List.getElem?_map, List.getElem?_range hs]
  rfl

/-- The frame at loop step 0 (and the probe frame) replays the original
layout exactly: x is unchanged and `y = m*x + c` evaluates back to the
original y because the solved line passes through the first endpoint. -/
theorem layout_df_after_one (original mapped : List Point) (T : ℕ)
    (hlen : original.length = mapped.length) :
    layout_of (df_after (calculate_time_cost_df (eq_rows original mapped)
        mapped) mapped T 1) = original := by
  apply List.ext_getElem?
  intro i
  rw [getElem?_layout_of, getElem?_df_after]
  cases ho : original[i]? with
  | none =>
      have : original.length ≤ i := List.getElem?_eq_none_iff.mp ho
      rfl
  | some p =>
      have hi : i < original.length := by
        rcases List.getElem?_eq_some.mp ho with ⟨h, -⟩
        exact h
      have hm : i < mapped.length := hlen ▸ hi
      rw [List.getElem?_eq_getElem hm]
      simp only [Option.map_some, row_at, x_after_one]
      rw [line_mc_first ((p.1, mapped[i].1)) ((p.2, mapped[i].2))]
      simp

/-- C1 counterexample: animating the single point `(0,0)` to `(1,1)` in
3 steps, the layout pushed at loop step 2 (sequence entry 3: probe
frame, then steps 0, 1, 2) has x = 7/9, while the claimed linear
interpolation `x_original + (s/total_steps) * (x_target - x_original)`
demands 2/3: `step_x_exponential` reads the current buffer x, not the
original one, so the update compounds across steps. -/
theorem step_x_not_linear_from_original :
    ∃ frames frame,
      get_animation_sequence [((0 : ℚ), (0 : ℚ))] [((1 : ℚ), (1 : ℚ))] 3 =
        .ok frames ∧
      frames[2 + 1]? = some frame ∧
      frame[0]? = some ((7 : ℚ)/9, (7 : ℚ)/9) ∧
      (7 : ℚ)/9 ≠ (0 : ℚ) + ((2 : ℚ)/3) * (1 - 0) := by
  refine ⟨_, _, get_animation_sequence_eq _ _ 3,
    animation_layouts_getElem_succ _ _ 3 2 (by norm_num), ?_, by norm_num⟩
  rw [getElem?_layout_of, getElem?_df_after]
  have hx : x_after (0 : ℚ) 1 3 3 = 7/9 := by
    show step_x_point (step_x_point (step_x_point ((0 : ℚ)) 1 0 3) 1 1 3)
      1 2 3 = 7/9
    norm_num [step_x_point]
  norm_num [row_at, line_mc, hx]

/-- C1 (amended): the layout pushed at loop step `s` has, per point, the
x given by the compounded in-place recurrence
`x ↦ x + j*(x_target - x)/total_steps` applied for `j = 0, ..., s`
starting from the original x (equivalently, the remaining distance to
the target is the original distance times `∏ (1 - j/total_steps)`), and
y equal to `m*x + c` with `m`, `c` the line coefficients solved from
that point's two endpoint pairs. -/
theorem animator_step_formula (original mapped : List Point) (T s i : ℕ)
    (hlen : original.length = mapped.length) (hs : s < T)
    (hi : i < original.length) :
    ∃ frames frame,
      get_animation_sequence original mapped T = .ok frames ∧
      frames[s + 1]? = some frame ∧
      frame[i]? = some
        (x_after original[i].1 mapped[i].1 T (s + 1),
         (line_mc (original[i].1, mapped[i].1)
             (original[i].2, mapped[i].2)).1 *
             x_after original[i].1 mapped[i].1 T (s + 1) +
           (line_mc (original[i].1, mapped[i].1)
             (original[i].2, mapped[i].2)).2) ∧
      mapped[i].1 - x_after original[i].1 mapped[i].1 T (s + 1) =
        (mapped[i].1 - original[i].1) *
          ∏ j ∈ Finset.range (s + 1), (1 - (j : ℚ) / (T : ℚ)) := by
  have hm : i < mapped.length := hlen ▸ hi
  refine ⟨_, _, get_animation_sequence_eq original mapped T,
    animation_layouts_getElem_succ _ _ T s hs, ?_,
    x_after_closed original[i].1 mapped[i].1 T (s + 1)⟩
  rw [getElem?_layout_of, getElem?_df_after,
    List.getElem?_eq_getElem hi, List.getElem?_eq_getElem hm]
  rfl

/-- Witness for C1 (amended) at the counterexample's input, step 1. -/
theorem animator_step_formula_witness :
    (([((0 : ℚ), (0 : ℚ))] : List Point).length =
        ([((1 : ℚ), (1 : ℚ))] : List Point).length ∧
      1 < 3 ∧ 0 < 1) ∧
    (∃ frames frame,
      get_animation_sequence [((0 : ℚ), (0 : ℚ))] [((1 : ℚ), (1 : ℚ))] 3 =
        .ok frames ∧
      frames[1 + 1]? = some frame ∧
      frame[0]? = some
        (x_after ([((0 : ℚ), (0 : ℚ))] : List Point)[0].1
            ([((1 : ℚ), (1 : ℚ))] : List Point)[0].1 3 (1 + 1),
         (line_mc (([((0 : ℚ), (0 : ℚ))] : List Point)[0].1,
              ([((1 : ℚ), (1 : ℚ))] : List Point)[0].1)
             (([((0 : ℚ), (0 : ℚ))] : List Point)[0].2,
              ([((1 : ℚ), (1 : ℚ))] : List Point)[0].2)).1 *
             x_after ([((0 : ℚ), (0 : ℚ))] : List Point)[0].1
               ([((1 : ℚ), (1 : ℚ))] : List Point)[0].1 3 (1 + 1) +
           (line_mc (([((0 : ℚ), (0 : ℚ))] : List Point)[0].1,
              ([((1 : ℚ), (1 : ℚ))] : List Point)[0].1)
             (([((0 : ℚ), (0 : ℚ))] : List Point)[0].2,
              ([((1 : ℚ), (1 : ℚ))] : List Point)[0].2)).2) ∧
      ([((1 : ℚ), (1 : ℚ))] : List Point)[0].1 -
          x_after ([((0 : ℚ), (0 : ℚ))] : List Point)[0].1
            ([((1 : ℚ), (1 : ℚ))] : List Point)[0].1 3 (1 + 1) =
        (([((1 : ℚ), (1 : ℚ))] : List Point)[0].1 -
            ([((0 : ℚ), (0 : ℚ))] : List Point)[0].1) *
          ∏ j ∈ Finset.range (1 + 1), (1 - (j : ℚ) / ((3 : ℕ) : ℚ))) :=
  ⟨⟨rfl, by norm_num, by norm_num⟩,
    animator_step_formula [((0 : ℚ), (0 : ℚ))] [((1 : ℚ), (1 : ℚ))] 3 1 0
      rfl (by norm_num) (by norm_num)⟩

/-- C2: when a point has identical x in the original and the target
layout, the zero-denominator slope is special-cased (the solver returns
the degenerate line without dividing, here slope `0` through the first
endpoint's y), building the animation sequence raises no division
error, and the point's y still reaches its target value: the sequence
ends with the force-written exact target layout. -/
theorem animator_zero_xdelta_safe (original mapped : List Point)
    (T i : ℕ) (hlen : original.length = mapped.length)
    (hi : i < original.length)
    (hx : original[i].1 = mapped[i].1) :
    calculate_line_equation (original[i].1, mapped[i].1)
        (original[i].2, mapped[i].2) = .ok (0, original[i].2) ∧
    ∃ frames, get_animation_sequence original mapped T = .ok frames ∧
      frames.getLast? = some mapped := by
  refine ⟨?_, _, get_animation_sequence_eq original mapped T,
    animation_layouts_getLast _ _ _⟩
  simp [calculate_line_equation, hx]

/-- Witness for C2 at the spec's example: `(2,2)` animating to `(2,6)`
(equal x). -/
theorem animator_zero_xdelta_safe_witness :
    (([((2 : ℚ), (2 : ℚ))] : List Point).length =
        ([((2 : ℚ), (6 : ℚ))] : List Point).length ∧
      (0 : ℕ) < 1 ∧
      ([((2 : ℚ), (2 : ℚ))] : List Point)[0].1 =
        ([((2 : ℚ), (6 : ℚ))] : List Point)[0].1) ∧
    (calculate_line_equation
        (([((2 : ℚ), (2 : ℚ))] : List Point)[0].1,
         ([((2 : ℚ), (6 : ℚ))] : List Point)[0].1)
        (([((2 : ℚ), (2 : ℚ))] : List Point)[0].2,
         ([((2 : ℚ), (6 : ℚ))] : List Point)[0].2) =
      .ok (0, ([((2 : ℚ), (2 : ℚ))] : List Point)[0].2) ∧
    ∃ frames,
      get_animation_sequence [((2 : ℚ), (2 : ℚ))] [((2 : ℚ), (6 : ℚ))] 2 =
        .ok frames ∧
      frames.getLast? = some [((2 : ℚ), (6 : ℚ))]) :=
  ⟨⟨rfl, by norm_num, rfl⟩,
    animator_zero_xdelta_safe [((2 : ℚ), (2 : ℚ))] [((2 : ℚ), (6 : ℚ))] 2 0
      rfl (by norm_num) rfl⟩

/-- C3: for every original and target layout over the same point set and
every step count (including 0), the sequence's step-0 frame equals the
original layout (exactly, in exact arithmetic, hence approximately under
floats), and the last layout written to the render buffer is exactly the
target layout. -/
theorem animator_boundaries (original mapped : List Point) (T : ℕ)
    (hlen : original.length = mapped.length) :
    ∃ frames, get_animation_sequence original mapped T = .ok frames ∧
      frames.getLast? = some mapped ∧
      (0 < T → frames[1]? = some original) := by
  refine ⟨_, get_animation_sequence_eq original mapped T,
    animation_layouts_getLast _ _ _, ?_⟩
  intro hT
  rw [show (1 : ℕ) = 0 + 1 from rfl,
    animation_layouts_getElem_succ (eq_rows original mapped) mapped T 0 hT,
    layout_df_after_one original mapped T hlen]

/-- Witness for C3 at a concrete pair of layouts and 2 steps. -/
theorem animator_boundaries_witness :
    (([((0 : ℚ), (0 : ℚ))] : List Point).length =
        ([((1 : ℚ), (3 : ℚ))] : List Point).length) ∧
    (∃ frames,
      get_animation_sequence [((0 : ℚ), (0 : ℚ))] [((1 : ℚ), (3 : ℚ))] 2 =
        .ok frames ∧
      frames.getLast? = some [((1 : ℚ), (3 : ℚ))] ∧
      (0 < 2 → frames[1]? = some [((0 : ℚ), (0 : ℚ))])) :=
  ⟨rfl, animator_boundaries [((0 : ℚ), (0 : ℚ))] [((1 : ℚ), (3 : ℚ))] 2 rfl⟩

end MappingAnimator

namespace MapperController

/-- C9 counterexample: an execution in which the push into the shared
source points raises AFTER the algorithm completed leaves the stored
last-mapped table overwritten with the new result, not unchanged: the
call fails, yet `get_mapped_points` no longer returns the previously
stored table `[(0,0)]`. -/
theorem execute_mapping_overwrite_counterexample :
    execute_mapping ⟨some [((0 : ℚ), (0 : ℚ))]⟩ (.ok [((1 : ℚ), (1 : ℚ))])
        false (.ok ()) true (.error "push failed") =
      (⟨some [((1 : ℚ), (1 : ℚ))]⟩, .error "push failed") ∧
    get_mapped_points (⟨some [((1 : ℚ), (1 : ℚ))]⟩ : MapperController) ≠
      get_mapped_points (⟨some [((0 : ℚ), (0 : ℚ))]⟩ : MapperController) := by
  refine ⟨rfl, ?_⟩
  simp only [get_mapped_points, ne_eq, Option.some.injEq, List.cons.injEq,
    Prod.mk.injEq]
  norm_num

/-- C9 (amended): the stored last-mapped table is overwritten only after
the mapping algorithm and the animation have completed.  When the
algorithm raises, or the animation raises, the controller state is left
unchanged; when the algorithm (and the animation, if present) completed,
`get_mapped_points` returns that completed result even if a later step
(the push into the shared source points) raises. -/
theorem execute_mapping_overwrite_discipline (st : MapperController)
    (alg : Except String Table) (has_animator : Bool)
    (anim : Except String Unit) (has_source : Bool)
    (src : Except String Unit) :
    (∀ e, alg = .error e →
      execute_mapping st alg has_animator anim has_source src =
        (st, .error e)) ∧
    (∀ t e, alg = .ok t → has_animator = true → anim = .error e →
      execute_mapping st alg has_animator anim has_source src =
        (st, .error e)) ∧
    (∀ t, alg = .ok t → (has_animator = false ∨ ∃ u, anim = .ok u) →
      get_mapped_points
        (execute_mapping st alg has_animator anim has_source src).1 =
        some t) := by
  refine ⟨?_, ?_, ?_⟩
  · intro e he; subst he; rfl
  · intro t e ht ha he; subst ht; subst ha; subst he; rfl
  · intro t ht hcase; subst ht
    rcases hcase with h | ⟨u, h⟩
    · subst h
      cases anim <;> cases has_source <;> cases src <;> rfl
    · subst h
      cases has_animator <;> cases has_source <;> cases src <;> rfl

/-- Witness for C9 (amended): the three failure points at concrete
tables. -/
theorem execute_mapping_overwrite_discipline_witness :
    (execute_mapping ⟨some [((0 : ℚ), (0 : ℚ))]⟩ (.error "alg failed")
        false (.ok ()) false (.ok ()) =
      (⟨some [((0 : ℚ), (0 : ℚ))]⟩, .error "alg failed")) ∧
    (execute_mapping ⟨some [((0 : ℚ), (0 : ℚ))]⟩ (.ok [((1 : ℚ), (1 : ℚ))])
        true (.error "anim failed") false (.ok ()) =
      (⟨some [((0 : ℚ), (0 : ℚ))]⟩, .error "anim failed")) ∧
    (get_mapped_points
        (execute_mapping ⟨some [((0 : ℚ), (0 : ℚ))]⟩
          (.ok [((1 : ℚ), (1 : ℚ))]) false (.ok ()) true
          (.error "push failed")).1 =
      some [((1 : ℚ), (1 : ℚ))]) :=
  ⟨(execute_mapping_overwrite_discipline ⟨some [((0 : ℚ), (0 : ℚ))]⟩
      (.error "alg failed") false (.ok ()) false (.ok ())).1
      "alg failed" rfl,
   (execute_mapping_overwrite_discipline ⟨some [((0 : ℚ), (0 : ℚ))]⟩
      (.ok [((1 : ℚ), (1 : ℚ))]) true (.error "anim failed") false
      (.ok ())).2.1 [((1 : ℚ), (1 : ℚ))] "anim failed" rfl rfl rfl,
   (execute_mapping_overwrite_discipline ⟨some [((0 : ℚ), (0 : ℚ))]⟩
      (.ok [((1 : ℚ), (1 : ℚ))]) false (.ok ()) true
      (.error "push failed")).2.2 [((1 : ℚ), (1 : ℚ))] rfl (Or.inl rfl)⟩

end MapperController

namespace StarCoordinatesView

/-- C5 (evaluating the code at the failing input): with registered axis
set `{"a"}`, updating the visibility of the unknown axis `"b"` does NOT
fail with the constructed invalid-reference `ValueError` — the source
builds it but never raises it.  Instead the call first pushes the
unknown identifier into the input-data controller's label statuses and
then terminates with the `KeyError` of the dict subscript. -/
theorem update_axis_visibility_missing_raise :
    update_axis_visibility ⟨["a"], [], 0⟩ "b" true true =
      (⟨["a"], [("b", true)], 0⟩, some (.keyError "b")) ∧
    ∀ msg, (update_axis_visibility ⟨["a"], [], 0⟩ "b" true true).2 ≠
      some (.valueError msg) := by
  constructor
  · rfl
  · intro msg h
    rw [show (update_axis_visibility ⟨["a"], [], 0⟩ "b" true true).2 =
        some (.keyError "b") from rfl] at h
    simp at h

end StarCoordinatesView

end Davil
